import Mathlib

/-!
Verification development for the visa-sponsorship-detector content script
(`content.js`).  The text of the script is shallowly embedded here:

* JS strings are modelled as `List Char` (`Str`); `String.prototype.toLowerCase`
  is modelled characterwise by `Char.toLower` (ASCII case mapping, which covers
  every character occurring in the patterns of the script and in the claims).
* The regular expressions of `RESTRICTION_PATTERNS` / `EXCLUSION_PATTERNS` are
  embedded as abstract syntax trees (`RE`) and executed by a backtracking
  matcher (`matchAll` / `reSearch`) with JavaScript semantics: alternation is
  ordered left-first, quantifiers are greedy, `\b` is a word boundary between
  `\w = [A-Za-z0-9_]` and non-word characters, and `String.prototype.match`
  (without the `g` flag) returns the match found at the leftmost possible
  starting position.  The `/i` flag is modelled by comparing characters through
  `Char.toLower`.
* The DOM is modelled only as far as `getPageText` reads it: an optional body
  carrying its rendered `innerText` and a tree of element/text nodes for the
  `TreeWalker` fallback.
* The stateful scan pipeline (`performScan`, `onStorageChange`, the `popstate`
  handler and the URL poll of `init`) is embedded as explicit state transitions
  that also emit a trace of the side effects the JS code would perform.
-/

set_option maxRecDepth 8000

namespace VSD

/-- JS strings, modelled as lists of characters. -/
abbrev Str := List Char

/-- Convert a Lean string literal into the string type of the model. -/
def str (s : String) : Str := s.toList

/-! ## Regular-expression engine (JS semantics) -/

/-- Abstract syntax of the regular expressions used by `content.js`.
Unbounded repetition occurs in the source only over single character classes
(`\s+`, `[a-z\s]{0,25}`), which `star` reflects. -/
inductive RE where
  | eps
  | cls (f : Char → Bool)
  | cat (r1 r2 : RE)
  | alt (r1 r2 : RE)
  | star (f : Char → Bool)
  | wb
deriving Inhabited

/-- JS `\w`: ASCII letters, digits and underscore. -/
def isWordChar (c : Char) : Bool := c.isAlphanum || c == '_'

/-- Word-character test on an optional character (`none` = string edge). -/
def isWordOpt : Option Char → Bool
  | none => false
  | some c => isWordChar c

/-- JS `\b` holds between `prev` and the start of `s` iff exactly one side is a
word character. -/
def wordBoundaryB (prev : Option Char) (s : Str) : Bool :=
  isWordOpt prev != isWordOpt s.head?

/-- All ways `f*` (greedy) can match a prefix of `s`, longest first, as pairs
(last consumed character, remaining suffix). -/
def starMatches (f : Char → Bool) : Option Char → Str → List (Option Char × Str)
  | prev, [] => [(prev, [])]
  | prev, c :: rest =>
      if f c then starMatches f (some c) rest ++ [(prev, c :: rest)]
      else [(prev, c :: rest)]

/-- All ways the regex can match a prefix of `s`, as pairs
(last consumed character, remaining suffix), in backtracking priority order:
alternation left-first, quantifiers greedy.  The match chosen by the JS engine is
the head of this list. `prev` is the character just before `s` in the subject
(needed for `\b`). -/
def matchAll : RE → Option Char → Str → List (Option Char × Str)
  | .eps, prev, s => [(prev, s)]
  | .cls _, _, [] => []
  | .cls f, _, c :: rest => if f c then [(some c, rest)] else []
  | .cat r1 r2, prev, s =>
      (matchAll r1 prev s).flatMap (fun pr => matchAll r2 pr.1 pr.2)
  | .alt r1 r2, prev, s => matchAll r1 prev s ++ matchAll r2 prev s
  | .star f, prev, s => starMatches f prev s
  | .wb, prev, s => if wordBoundaryB prev s then [(prev, s)] else []

/-- The match of the regex at the current position, if any: the matched
substring (the consumed prefix of `s`) chosen by JS backtracking order. -/
def reMatchAt (r : RE) (prev : Option Char) (s : Str) : Option Str :=
  match (matchAll r prev s).head? with
  | some pr => some (s.take (s.length - pr.2.length))
  | none => none

/-- Leftmost search: `String.prototype.match` / `RegExp.prototype.test`
try each starting position from the left and return the first match. -/
def reSearchAux (r : RE) : Option Char → Str → Option Str
  | prev, [] => reMatchAt r prev []
  | prev, c :: rest =>
      match reMatchAt r prev (c :: rest) with
      | some m => some m
      | none => reSearchAux r (some c) rest

/-- Model of `text.match(r)`: the matched substring `m[0]` of the leftmost match. -/
def reSearch (r : RE) (text : Str) : Option Str := reSearchAux r none text

/-- Model of `r.test(text)`. -/
def reTest (r : RE) (text : Str) : Bool := (reSearch r text).isSome

/-! ### Pattern construction helpers -/

/-- A case-insensitive literal character (`/i` flag): the subject character is
lowercased before comparison; `c` is stored lowercase. -/
def chrRe (c : Char) : RE := .cls (fun x => x.toLower == c)

/-- A literal string, character by character. -/
def strRe : Str → RE
  | [] => .eps
  | c :: cs => .cat (chrRe c) (strRe cs)

/-- A case-insensitive literal word from a Lean string literal. -/
def lit (s : String) : RE := strRe s.toList

/-- Sequencing of a list of regexes. -/
def seq : List RE → RE
  | [] => .eps
  | r :: rs => .cat r (seq rs)

/-- Ordered alternation of a list of regexes (JS tries left first). -/
def altL : List RE → RE
  | [] => .cls (fun _ => false)
  | [r] => r
  | r :: rs => .alt r (altL rs)

/-- Optional: `r?` (greedy: try `r` first). -/
def opt (r : RE) : RE := .alt r .eps

/-- JS `\s` (the ASCII part, which covers the subjects in this development). -/
def isWs (c : Char) : Bool :=
  c == ' ' || c == '\t' || c == '\n' || c == '\r' || c == '\x0b' || c == '\x0c'

/-- One or more whitespace characters: `\s+`. -/
def spRe : RE := .cat (.cls isWs) (.star isWs)

/-- The character class `[a-z\s]` under the `/i` flag. -/
def azws (c : Char) : Bool := ('a' ≤ c.toLower && c.toLower ≤ 'z') || isWs c

/-- Bounded repetition `f{0,n}` (greedy). -/
def repUpTo (f : Char → Bool) : Nat → RE
  | 0 => .eps
  | n + 1 => .alt (.cat (.cls f) (repUpTo f n)) .eps

/-- The group `(?:us|u\.?s\.?)`. -/
def usRe : RE :=
  altL [lit "us", seq [chrRe 'u', opt (chrRe '.'), chrRe 's', opt (chrRe '.')]]

/-- The group `(?:visa\s+)?`. -/
def optVisaSp : RE := opt (seq [lit "visa", spRe])

/-! ### The phrase rule set of `content.js` -/

/-- The list `RESTRICTION_PATTERNS` from `content.js`, one AST per source regex, in
source order. -/
def RESTRICTION_PATTERNS : List RE := [
  -- /\bno\s+(?:visa\s+)?sponsorship\b/i
  seq [.wb, lit "no", spRe, optVisaSp, lit "sponsorship", .wb],
  -- /\b(?:visa\s+)?sponsorship\s+not\s+(?:available|provided|offered|supported)\b/i
  seq [.wb, optVisaSp, lit "sponsorship", spRe, lit "not", spRe,
       altL [lit "available", lit "provided", lit "offered", lit "supported"], .wb],
  -- /\b(?:we\s+)?(?:do|does|will)\s+not\s+sponsor\b/i
  seq [.wb, opt (seq [lit "we", spRe]), altL [lit "do", lit "does", lit "will"],
       spRe, lit "not", spRe, lit "sponsor", .wb],
  -- /\b(?:cannot|unable\s+to)\s+sponsor\b/i
  seq [.wb, altL [lit "cannot", seq [lit "unable", spRe, lit "to"]],
       spRe, lit "sponsor", .wb],
  -- /\b(?:do|does)\s+not\s+provide\s+sponsorship\b/i
  seq [.wb, altL [lit "do", lit "does"], spRe, lit "not", spRe, lit "provide",
       spRe, lit "sponsorship", .wb],
  -- /\bnot\s+eligible\s+for\s+sponsorship\b/i
  seq [.wb, lit "not", spRe, lit "eligible", spRe, lit "for", spRe,
       lit "sponsorship", .wb],
  -- /\bno\s+(?:h-?1b|h1b|visa)\s+sponsor/i
  seq [.wb, lit "no", spRe,
       altL [seq [chrRe 'h', opt (chrRe '-'), lit "1b"], lit "h1b", lit "visa"],
       spRe, lit "sponsor"],
  -- /\b(?:we\s+)?(?:do|does)\s+not\s+sponsor\s+visas\b/i
  seq [.wb, opt (seq [lit "we", spRe]), altL [lit "do", lit "does"], spRe,
       lit "not", spRe, lit "sponsor", spRe, lit "visas", .wb],
  -- /\b(?:us|u\.?s\.?)\s+citizenship\s+required\b/i
  seq [.wb, usRe, spRe, lit "citizenship", spRe, lit "required", .wb],
  -- /\bmust\s+be\s+(?:a\s+)?(?:us|u\.?s\.?)\s+citizen\b/i
  seq [.wb, lit "must", spRe, lit "be", spRe, opt (seq [lit "a", spRe]), usRe,
       spRe, lit "citizen", .wb],
  -- /\b(?:us|u\.?s\.?)\s+citizen(?:s)?\s+only\b/i
  seq [.wb, usRe, spRe, lit "citizen", opt (chrRe 's'), spRe, lit "only", .wb],
  -- /\bonly\s+(?:us|u\.?s\.?)\s+citizens?\s+(?:are\s+)?eligible\b/i
  seq [.wb, lit "only", spRe, usRe, spRe, lit "citizen", opt (chrRe 's'), spRe,
       opt (seq [lit "are", spRe]), lit "eligible", .wb],
  -- /\bgreen\s+card\s+holders?\s+only\b/i
  seq [.wb, lit "green", spRe, lit "card", spRe, lit "holder", opt (chrRe 's'),
       spRe, lit "only", .wb],
  -- /\b(?:citizen\s+or\s+)?permanent\s+resident\s+only\b/i
  seq [.wb, opt (seq [lit "citizen", spRe, lit "or", spRe]), lit "permanent",
       spRe, lit "resident", spRe, lit "only", .wb],
  -- /\b(?:us|u\.?s\.?)\s+permanent\s+resident\s+only\b/i
  seq [.wb, usRe, spRe, lit "permanent", spRe, lit "resident", spRe,
       lit "only", .wb],
  -- /\bauthorized\s+to\s+work\s+without\s+sponsorship\b/i
  seq [.wb, lit "authorized", spRe, lit "to", spRe, lit "work", spRe,
       lit "without", spRe, lit "sponsorship", .wb],
  -- /\bproof\s+of\s+(?:country\s+of\s+)?citizenship\b/i
  seq [.wb, lit "proof", spRe, lit "of", spRe,
       opt (seq [lit "country", spRe, lit "of", spRe]), lit "citizenship", .wb],
  -- /\bcitizenship\s+verification\b/i
  seq [.wb, lit "citizenship", spRe, lit "verification", .wb],
  -- /\bapplicants?\s+must\s+be\s+(?:a\s+)?(?:us|u\.?s\.?)\s+citizen/i
  seq [.wb, lit "applicant", opt (chrRe 's'), spRe, lit "must", spRe, lit "be",
       spRe, opt (seq [lit "a", spRe]), usRe, spRe, lit "citizen"],
  -- /\binternational\s+traffic\s+in\s+arms\s+regulations\b/i
  seq [.wb, lit "international", spRe, lit "traffic", spRe, lit "in", spRe,
       lit "arms", spRe, lit "regulations", .wb],
  -- /\bexport\s+administration\s+regulations\b/i
  seq [.wb, lit "export", spRe, lit "administration", spRe,
       lit "regulations", .wb]]

/-- The list `EXCLUSION_PATTERNS` from `content.js`, in source order. -/
def EXCLUSION_PATTERNS : List RE := [
  -- /\bno\s+[a-z\s]{0,25}(?:citizenship|citizen)\s+required\b/i
  seq [.wb, lit "no", spRe, repUpTo azws 25,
       altL [lit "citizenship", lit "citizen"], spRe, lit "required", .wb],
  -- /\b(?:citizenship|citizen)\s+not\s+required\b/i
  seq [.wb, altL [lit "citizenship", lit "citizen"], spRe, lit "not", spRe,
       lit "required", .wb],
  -- /\b(?:no|not)\s+[a-z\s]{0,30}(?:visa\s+)?sponsorship\s+(?:required|needed)\b/i
  seq [.wb, altL [lit "no", lit "not"], spRe, repUpTo azws 30, optVisaSp,
       lit "sponsorship", spRe, altL [lit "required", lit "needed"], .wb],
  -- /\b(?:visa\s+)?sponsorship\s+not\s+(?:required|needed)\b/i
  seq [.wb, optVisaSp, lit "sponsorship", spRe, lit "not", spRe,
       altL [lit "required", lit "needed"], .wb],
  -- /\b(?:do|does)\s+not\s+require\s+(?:visa\s+)?sponsorship\b/i
  seq [.wb, altL [lit "do", lit "does"], spRe, lit "not", spRe, lit "require",
       spRe, optVisaSp, lit "sponsorship", .wb],
  -- /\bwith\s+or\s+without\s+(?:visa\s+)?sponsorship\b/i
  seq [.wb, lit "with", spRe, lit "or", spRe, lit "without", spRe, optVisaSp,
       lit "sponsorship", .wb],
  -- /\b(?:visa\s+)?sponsorship\s+(?:is\s+)?available\b/i
  seq [.wb, optVisaSp, lit "sponsorship", spRe, opt (seq [lit "is", spRe]),
       lit "available", .wb]]

/-! ## The matcher (`scanForRestrictions`) -/

/-- Model of `[...new Set(l)]`: deduplicate keeping the first occurrence of each
element, preserving insertion order (the `seen` accumulator holds elements
already emitted). -/
def jsSetDedupAux (seen : List Str) : List Str → List Str
  | [] => []
  | a :: l =>
      if a ∈ seen then jsSetDedupAux seen l
      else a :: jsSetDedupAux (a :: seen) l

/-- Model of `[...new Set(l)]`. -/
def jsSetDedup (l : List Str) : List Str := jsSetDedupAux [] l

/-- The body of `scanForRestrictions`, generalized over the two pattern lists
(the source reads the two module-level constants):
empty-text early return, exclusion veto, per-pattern `match`, dedup. -/
def scanCore (epats rpats : List RE) (text : Str) : List Str :=
  if text = [] then []
  else if epats.any (fun p => reTest p text) then []
  else jsSetDedup (rpats.filterMap
    (fun p => (reSearch p text).map (fun m => m.map Char.toLower)))

/-- The function `scanForRestrictions` of the regex-based `content.js`. -/
def scanForRestrictions (text : Str) : List Str :=
  scanCore EXCLUSION_PATTERNS RESTRICTION_PATTERNS text

/-! ## The keyword variant of `scanForRestrictions` -/

/-- The list `RESTRICTION_KEYWORDS` of the keyword-based `content.js` variant. -/
def RESTRICTION_KEYWORDS : List Str := [
  str "no sponsorship",
  str "does not provide sponsorship",
  str "without visa sponsorship",
  str "must be a citizen",
  str "us citizen only",
  str "u.s. citizen only",
  str "u.s. citizenship is required",
  str "us citizenship is required",
  str "only u.s. citizens are eligible",
  str "only us citizens are eligible",
  str "gc holders only",
  str "no visa support",
  str "not eligible for sponsorship",
  str "authorized to work without sponsorship",
  str "we do not sponsor visas",
  str "sponsorship is not available",
  str "no h1b sponsorship",
  str "no h-1b sponsorship",
  str "does not sponsor",
  str "will not sponsor",
  str "cannot sponsor",
  str "unable to sponsor",
  str "sponsorship not provided",
  str "no work authorization support",
  str "no visa sponsorship",
  str "citizen or permanent resident only",
  str "us permanent resident only",
  str "green card holders only",
  str "no sponsorship available",
  str "sponsorship unavailable"]

/-- Does `needle` start `hay`? (`String.prototype.startsWith`-style check used
to implement substring containment). -/
def leadsWith : Str → Str → Bool
  | [], _ => true
  | _ :: _, [] => false
  | c :: cs, d :: ds => c == d && leadsWith cs ds

/-- Model of `hay.includes(needle)`: contiguous-substring containment. -/
def containsStr (hay needle : Str) : Bool :=
  match hay with
  | [] => leadsWith needle []
  | _ :: rest => leadsWith needle hay || containsStr rest needle

/-- The function `scanForRestrictions` of the keyword-based `content.js` variant:
lowercase the text, keep every keyword contained in it, dedup. -/
def scanForRestrictionsKw (text : Str) : List Str :=
  if text = [] then []
  else
    jsSetDedup (RESTRICTION_KEYWORDS.filter
      (fun k => containsStr (text.map Char.toLower) k))

/-! ## DOM model and the text extractor (`getPageText`) -/

/-- A DOM node as far as the `TreeWalker` fallback reads it: element nodes
with a (lowercase) tag name and children, and text nodes with their
`textContent`. -/
inductive Node where
  | text (s : Str)
  | elem (tag : String) (children : List Node)
deriving Inhabited

/-- Model of `document.body`: the rendered `innerText` (layout-dependent, supplied by
the browser, hence a field of the model) plus the child nodes walked by the
fallback. -/
structure Body where
  innerText : Str
  children : List Node
deriving Inhabited

/-- The document: `document.body` may be absent on a not-yet-loaded page. -/
structure Doc where
  body : Option Body
deriving Inhabited

/-- The JS whitespace trimmed by `String.prototype.trim` (ASCII part). -/
def trimStr (s : Str) : Str :=
  ((s.dropWhile isWs).reverse.dropWhile isWs).reverse

/-- Tags whose text children the walker rejects. -/
def badTagB (tag : String) : Bool :=
  tag == "script" || tag == "style" || tag == "noscript"

/-- The acceptance test of the walker combined with the chunk filter of
`getPageText`: parent not script/style/noscript, trimmed text non-empty and
longer than 5 characters. -/
def keepFrag (ptag : String) (s : Str) : Bool :=
  !badTagB ptag && (!(trimStr s).isEmpty && decide (5 < (trimStr s).length))

mutual

/-- The `TreeWalker` loop of `getPageText` at a single node: a text node
contributes its trimmed text if it passes the walker filter (`ptag` is the
tag of its parent element); an element node contributes the chunks of its
children. -/
def collectNode (ptag : String) : Node → List Str
  | Node.text s => if keepFrag ptag s then [trimStr s] else []
  | Node.elem tag cs => collectChunks tag cs

/-- The `TreeWalker` loop of `getPageText`: visit the text nodes under the
given node list in document order (`tag` is the tag of their parent element),
collecting the trimmed surviving chunks. -/
def collectChunks (tag : String) : List Node → List Str
  | [] => []
  | n :: ns => collectNode tag n ++ collectChunks tag ns

end

mutual

/-- The text nodes under a single node, with the tag of their parent element
(used to state what the walker computes). -/
def textNodesNode (ptag : String) : Node → List (String × Str)
  | Node.text s => [(ptag, s)]
  | Node.elem tag cs => textNodesList tag cs

/-- The text nodes under a node list, in document order, with the tag of
their parent element. -/
def textNodesList (tag : String) : List Node → List (String × Str)
  | [] => []
  | n :: ns => textNodesNode tag n ++ textNodesList tag ns

end

/-- Model of the join with single-space separators in `getPageText`. -/
def joinSpace : List Str → Str
  | [] => []
  | [x] => x
  | x :: xs => x ++ ' ' :: joinSpace xs

/-- The extractor `getPageText`: empty for a body-less document; the lowercased rendered
`innerText` when it is non-empty and longer than 50 characters; otherwise the
lowercased space-joined chunks of the `TreeWalker` fallback. -/
def getPageText (doc : Doc) : Str :=
  match doc.body with
  | none => []
  | some b =>
      if b.innerText ≠ [] ∧ 50 < b.innerText.length then
        b.innerText.map Char.toLower
      else
        (joinSpace (collectChunks "body" b.children)).map Char.toLower

/-! ## The scan pipeline (`performScan`, `onStorageChange`, navigation) -/

/-- The mutable module-level state of `content.js` that the scan pipeline
reads and writes, plus the two presenter facts the claims talk about (whether
the banner is shown and whether highlight marks are present). -/
structure ScanState where
  lastScannedText : Str
  isExtensionEnabled : Bool
  highlightMatches : Bool
  bannerVisible : Bool
  highlightsPresent : Bool
deriving DecidableEq, Inhabited

/-- Side effects a pipeline step performs, in order. -/
inductive Effect where
  | extractText
  | runMatcher (text : Str)
  | showBanner (phrases : List Str)
  | removeBanner
  | highlight (phrases : List Str)
  | removeHighlights
  | scheduleScan
deriving DecidableEq

/-- The function `performScan`, as a transition on the pipeline state given the current
document, returning the new state and the effects performed:
disabled → clear banner and return; extract; skip when the text equals the
cached snapshot; otherwise update the snapshot, run the matcher, and show or
clear the banner (optionally highlighting). -/
def performScan (dom : Doc) (s : ScanState) : ScanState × List Effect :=
  if s.isExtensionEnabled = false then
    ({ s with bannerVisible := false, highlightsPresent := false },
     [Effect.removeBanner])
  else
    let text := getPageText dom
    if text = s.lastScannedText then (s, [Effect.extractText])
    else
      let s1 := { s with lastScannedText := text }
      let found := scanForRestrictions text
      if found ≠ [] then
        if s.highlightMatches then
          ({ s1 with bannerVisible := true, highlightsPresent := true },
           [Effect.extractText, Effect.runMatcher text,
            Effect.showBanner found, Effect.highlight found])
        else
          ({ s1 with bannerVisible := true },
           [Effect.extractText, Effect.runMatcher text,
            Effect.showBanner found])
      else
        ({ s1 with bannerVisible := false, highlightsPresent := false },
         [Effect.extractText, Effect.runMatcher text, Effect.removeBanner])

/-- The storage areas of `chrome.storage.onChanged`. -/
inductive StorageArea where
  | sync | local | managed | session
deriving DecidableEq

/-- One entry of the `changes` object: the new value of a key (`none` models
the JS `undefined` of a removed key). -/
structure KeyChange where
  newValue : Option Bool
deriving DecidableEq

/-- The `changes` object of `onStorageChange`, restricted to the two keys the
script listens to (`some kc` iff the key is present in `changes`). -/
structure StorageChanges where
  enabledChange : Option KeyChange
  highlightChange : Option KeyChange

/-- The handler `onStorageChange`: ignore areas other than sync/local; apply the enabled
change (`newValue !== false`), clearing the banner when disabling and
scheduling a scan when enabling; then the highlight change (`newValue ===
true`), scheduling a scan when enabling and removing highlights when
disabling. -/
def onStorageChange (ch : StorageChanges) (area : StorageArea) (s : ScanState) :
    ScanState × List Effect :=
  if area ≠ StorageArea.sync ∧ area ≠ StorageArea.local then (s, [])
  else
    let step1 : ScanState × List Effect :=
      match ch.enabledChange with
      | none => (s, [])
      | some kc =>
          if kc.newValue ≠ some false then
            ({ s with isExtensionEnabled := true }, [Effect.scheduleScan])
          else
            ({ s with
                isExtensionEnabled := false,
                bannerVisible := false,
                highlightsPresent := false },
             [Effect.removeBanner])
    match ch.highlightChange with
    | none => step1
    | some kc =>
        if kc.newValue = some true then
          ({ step1.1 with highlightMatches := true },
           step1.2 ++ [Effect.scheduleScan])
        else
          ({ step1.1 with
              highlightMatches := false,
              highlightsPresent := false },
           step1.2 ++ [Effect.removeHighlights])

/-- The `popstate` listener of `init`: reset the cached snapshot and schedule
a scan. -/
def onPopstate (s : ScanState) : ScanState × List Effect :=
  ({ s with lastScannedText := [] }, [Effect.scheduleScan])

/-- One tick of the URL poll of `init`: on a URL change (string inequality
against the last observed URL) record the new URL, reset the cached snapshot
and schedule a scan; otherwise do nothing. -/
def urlPollTick (current lastUrl : String) (s : ScanState) :
    String × ScanState × List Effect :=
  if current ≠ lastUrl then
    (current, { s with lastScannedText := [] }, [Effect.scheduleScan])
  else (lastUrl, s, [])

/-! ## The debounce (`debouncedScan`) -/

/-- The constant `SCAN_DEBOUNCE_MS` from `content.js`. -/
def SCAN_DEBOUNCE_MS : Nat := 500

/-- One `debouncedScan` call at wall-clock time `t` against the single pending
timer slot `scanTimeout`: a pending timer whose deadline has already been
reached fired (one `performScan` execution, recorded by its fire time);
otherwise `clearTimeout` cancels it; either way a fresh timer is armed for
`t + SCAN_DEBOUNCE_MS`. -/
def debouncedScanStep (pending : Option Nat) (t : Nat) : Option Nat × List Nat :=
  match pending with
  | some d => if d ≤ t then (some (t + SCAN_DEBOUNCE_MS), [d])
              else (some (t + SCAN_DEBOUNCE_MS), [])
  | none => (some (t + SCAN_DEBOUNCE_MS), [])

/-- Run a sequence of `debouncedScan` trigger times against the timer slot,
collecting fire times in order. -/
def debounceRun (pending : Option Nat) : List Nat → List Nat × Option Nat
  | [] => ([], pending)
  | t :: ts =>
      let st := debouncedScanStep pending t
      let rest := debounceRun st.1 ts
      (st.2 ++ rest.1, rest.2)

/-- All scan executions produced by a burst of trigger times (after the last
trigger, the surviving timer fires at its deadline). -/
def debounceFires (triggers : List Nat) : List Nat :=
  let run := debounceRun none triggers
  run.1 ++ run.2.toList

/-- Syntactic test: does the regex begin with a `\b` assertion? -/
def startsWithWB : RE → Bool
  | .cat .wb _ => true
  | _ => false

/-- Does `needle` occur in the remaining subject starting at a word boundary?
(`prev` is the character before the current position.) -/
def occursAtBoundaryAux (needle : Str) : Option Char → Str → Bool
  | prev, [] => leadsWith needle [] && wordBoundaryB prev []
  | prev, c :: rest =>
      (leadsWith needle (c :: rest) && wordBoundaryB prev (c :: rest)) ||
      occursAtBoundaryAux needle (some c) rest

/-- Does `needle` occur anywhere in `hay` starting at a word boundary? -/
def occursAtBoundaryB (needle hay : Str) : Bool :=
  occursAtBoundaryAux needle none hay

/-! ## Helper lemmas -/

theorem jsSetDedupAux_sublist (l : List Str) :
    ∀ seen, List.Sublist (jsSetDedupAux seen l) l := by
  induction l with
  | nil => intro seen; simp [jsSetDedupAux]
  | cons a t ih =>
      intro seen
      simp only [jsSetDedupAux]
      split
      · exact (ih seen).trans (List.sublist_cons_self a t)
      · exact (ih (a :: seen)).cons₂ a

theorem mem_jsSetDedupAux_not_seen (l : List Str) :
    ∀ seen x, x ∈ jsSetDedupAux seen l → x ∉ seen := by
  induction l with
  | nil => intro seen x h; simp [jsSetDedupAux] at h
  | cons a t ih =>
      intro seen x h
      simp only [jsSetDedupAux] at h
      split at h
      · exact ih seen x h
      · rcases List.mem_cons.mp h with rfl | hm
        · assumption
        · intro hx
          exact ih (a :: seen) x hm (List.mem_cons_of_mem a hx)

theorem jsSetDedupAux_nodup (l : List Str) :
    ∀ seen, (jsSetDedupAux seen l).Nodup := by
  induction l with
  | nil => intro seen; simp [jsSetDedupAux]
  | cons a t ih =>
      intro seen
      simp only [jsSetDedupAux]
      split
      · exact ih seen
      · refine List.nodup_cons.mpr ⟨?_, ih (a :: seen)⟩
        intro hmem
        exact mem_jsSetDedupAux_not_seen t (a :: seen) a hmem
          (List.mem_cons_self a seen)

theorem jsSetDedup_sublist (l : List Str) : List.Sublist (jsSetDedup l) l :=
  jsSetDedupAux_sublist l []

theorem jsSetDedup_nodup (l : List Str) : (jsSetDedup l).Nodup :=
  jsSetDedupAux_nodup l []

theorem mem_of_mem_jsSetDedup {l : List Str} {x : Str}
    (h : x ∈ jsSetDedup l) : x ∈ l :=
  (jsSetDedup_sublist l).subset h

theorem reMatchAt_prefix {r : RE} {prev : Option Char} {s m : Str}
    (h : reMatchAt r prev s = some m) : ∃ post, m ++ post = s := by
  unfold reMatchAt at h
  rcases he : (matchAll r prev s).head? with _ | pr
  · rw [he] at h; cases h
  · rw [he] at h
    refine ⟨s.drop (s.length - pr.2.length), ?_⟩
    have : m = s.take (s.length - pr.2.length) := by
      injection h with h'
      exact h'.symm
    rw [this]
    exact List.take_append_drop _ s

theorem reSearchAux_infix {r : RE} :
    ∀ (s : Str) (prev : Option Char) (m : Str),
      reSearchAux r prev s = some m → ∃ pre post, pre ++ (m ++ post) = s := by
  intro s
  induction s with
  | nil =>
      intro prev m h
      simp only [reSearchAux] at h
      obtain ⟨post, hp⟩ := reMatchAt_prefix h
      exact ⟨[], post, hp⟩
  | cons c rest ih =>
      intro prev m h
      simp only [reSearchAux] at h
      rcases he : reMatchAt r prev (c :: rest) with _ | m0
      · rw [he] at h
        obtain ⟨pre, post, hp⟩ := ih (some c) m h
        exact ⟨c :: pre, post, by simp [hp]⟩
      · rw [he] at h
        injection h with h'
        subst h'
        obtain ⟨post, hp⟩ := reMatchAt_prefix he
        exact ⟨[], post, hp⟩

theorem reSearch_infix {r : RE} {text m : Str}
    (h : reSearch r text = some m) : ∃ pre post, pre ++ (m ++ post) = text :=
  reSearchAux_infix text none m h

theorem char_toNat_ofNat_valid (n : Nat) (h : n < 55296) :
    (Char.ofNat n).toNat = n := by
  unfold Char.ofNat
  rw [dif_pos (Or.inl h)]
  rfl

theorem toLower_not_upper (c : Char) :
    ¬(65 ≤ c.toLower.toNat ∧ c.toLower.toNat ≤ 90) := by
  have hl : c.toLower =
      if 65 ≤ c.toNat ∧ c.toNat ≤ 90 then Char.ofNat (c.toNat + 32) else c :=
    rfl
  by_cases h : 65 ≤ c.toNat ∧ c.toNat ≤ 90
  · rw [hl, if_pos h, char_toNat_ofNat_valid (c.toNat + 32) (by omega)]
    omega
  · rw [hl, if_neg h]
    exact h

theorem toLower_toLower (c : Char) : c.toLower.toLower = c.toLower := by
  have hl : c.toLower.toLower =
      if 65 ≤ c.toLower.toNat ∧ c.toLower.toNat ≤ 90 then
        Char.ofNat (c.toLower.toNat + 32)
      else c.toLower := rfl
  rw [hl, if_neg (toLower_not_upper c)]

theorem map_toLower_idem (l : Str) :
    (l.map Char.toLower).map Char.toLower = l.map Char.toLower := by
  rw [List.map_map]
  exact List.map_congr_left (fun a _ => toLower_toLower a)

theorem matchAll_wb_boundary {r : RE} (hr : startsWithWB r = true)
    (prev : Option Char) (s : Str) (h : matchAll r prev s ≠ []) :
    wordBoundaryB prev s = true := by
  by_contra hb
  rw [Bool.not_eq_true] at hb
  cases r with
  | cat r1 r2 =>
      cases r1 with
      | wb => simp [matchAll, hb] at h
      | eps => simp [startsWithWB] at hr
      | cls f => simp [startsWithWB] at hr
      | cat a b => simp [startsWithWB] at hr
      | alt a b => simp [startsWithWB] at hr
      | star f => simp [startsWithWB] at hr
  | eps => simp [startsWithWB] at hr
  | cls f => simp [startsWithWB] at hr
  | alt a b => simp [startsWithWB] at hr
  | star f => simp [startsWithWB] at hr
  | wb => simp [startsWithWB] at hr

theorem leadsWith_append : ∀ (needle hay : Str),
    leadsWith needle hay = true → ∃ post, needle ++ post = hay := by
  intro needle
  induction needle with
  | nil => intro hay _; exact ⟨hay, rfl⟩
  | cons c cs ih =>
      intro hay h
      cases hay with
      | nil => simp [leadsWith] at h
      | cons d ds =>
          simp only [leadsWith, Bool.and_eq_true, beq_iff_eq] at h
          obtain ⟨rfl, h2⟩ := h
          obtain ⟨post, hp⟩ := ih ds h2
          exact ⟨post, by simp [hp]⟩

theorem containsStr_split : ∀ (hay needle : Str),
    containsStr hay needle = true →
    ∃ pre post, pre ++ (needle ++ post) = hay := by
  intro hay
  induction hay with
  | nil =>
      intro needle h
      simp only [containsStr] at h
      obtain ⟨post, hp⟩ := leadsWith_append needle [] h
      exact ⟨[], post, by simp [hp]⟩
  | cons c rest ih =>
      intro needle h
      simp only [containsStr, Bool.or_eq_true] at h
      rcases h with h | h
      · obtain ⟨post, hp⟩ := leadsWith_append needle (c :: rest) h
        exact ⟨[], post, by simp [hp]⟩
      · obtain ⟨pre, post, hp⟩ := ih needle h
        exact ⟨c :: pre, post, by simp [hp]⟩

mutual

theorem collectNode_eq (ptag : String) (n : Node) :
    collectNode ptag n =
      ((textNodesNode ptag n).filter (fun pr => keepFrag pr.1 pr.2)).map
        (fun pr => trimStr pr.2) := by
  cases n with
  | text s =>
      by_cases h : keepFrag ptag s <;>
        simp [collectNode, textNodesNode, h]
  | elem tag cs =>
      simpa [collectNode, textNodesNode] using collectChunks_eq tag cs

theorem collectChunks_eq (tag : String) (ns : List Node) :
    collectChunks tag ns =
      ((textNodesList tag ns).filter (fun pr => keepFrag pr.1 pr.2)).map
        (fun pr => trimStr pr.2) := by
  cases ns with
  | nil => simp [collectChunks, textNodesList]
  | cons n ns =>
      simp [collectChunks, textNodesList, List.filter_append,
            collectNode_eq tag n, collectChunks_eq tag ns]

end

theorem debounceRun_quiet : ∀ (ts : List Nat) (a : Nat),
    List.Chain' (fun x y => x ≤ y ∧ y < x + SCAN_DEBOUNCE_MS) (a :: ts) →
    debounceRun (some (a + SCAN_DEBOUNCE_MS)) ts =
      ([], some ((a :: ts).getLast (by simp) + SCAN_DEBOUNCE_MS)) := by
  intro ts
  induction ts with
  | nil => intro a _; simp [debounceRun, List.getLast]
  | cons t ts ih =>
      intro a hch
      rw [List.chain'_cons] at hch
      obtain ⟨⟨hle, hlt⟩, hch'⟩ := hch
      have hstep : debouncedScanStep (some (a + SCAN_DEBOUNCE_MS)) t =
          (some (t + SCAN_DEBOUNCE_MS), []) := by
        simp only [debouncedScanStep]
        rw [if_neg (by omega)]
      simp only [debounceRun, hstep]
      rw [ih t hch']
      simp [List.getLast_cons]

/-! ## Claim theorems -/

/-- C1: veto precedence — for every input text in which at least one exclusion
matcher matches anywhere, `scanForRestrictions` returns the empty result, even
if restriction matchers would also match. -/
theorem C1_veto_precedence (text : Str)
    (h : EXCLUSION_PATTERNS.any (fun p => reTest p text) = true) :
    scanForRestrictions text = [] := by
  unfold scanForRestrictions scanCore
  by_cases ht : text = []
  · simp [ht]
  · rw [if_neg ht, if_pos h]

/-- Witness for C1 at the concrete text "no visa sponsorship required", on
which an exclusion pattern and a restriction pattern both match. -/
theorem C1_veto_precedence_witness :
    EXCLUSION_PATTERNS.any
      (fun p => reTest p (str "no visa sponsorship required")) = true ∧
    RESTRICTION_PATTERNS.any
      (fun p => reTest p (str "no visa sponsorship required")) = true ∧
    scanForRestrictions (str "no visa sponsorship required") = [] :=
  ⟨by decide, by decide, C1_veto_precedence _ (by decide)⟩

/-- C3: dedup and deterministic order — for every text with no exclusion
match, the result of `scanForRestrictions` has no duplicate phrase, and it is
a sublist of the per-pattern match list taken in the order of
`RESTRICTION_PATTERNS`, so distinct phrases appear in matcher order. -/
theorem C3_dedup_order (text : Str)
    (h : EXCLUSION_PATTERNS.any (fun p => reTest p text) = false) :
    (scanForRestrictions text).Nodup ∧
    List.Sublist (scanForRestrictions text)
      (RESTRICTION_PATTERNS.filterMap
        (fun p => (reSearch p text).map (fun m => m.map Char.toLower))) := by
  unfold scanForRestrictions scanCore
  by_cases ht : text = []
  · rw [if_pos ht]
    exact ⟨List.nodup_nil, List.nil_sublist _⟩
  · rw [if_neg ht, if_neg (by simp [h])]
    exact ⟨jsSetDedup_nodup _, jsSetDedup_sublist _⟩

/-- Witness for C3 at the concrete text "no sponsorship and no sponsorship",
where no exclusion matches. -/
theorem C3_dedup_order_witness :
    EXCLUSION_PATTERNS.any
      (fun p => reTest p (str "no sponsorship and no sponsorship")) = false ∧
    (scanForRestrictions (str "no sponsorship and no sponsorship")).Nodup ∧
    List.Sublist (scanForRestrictions (str "no sponsorship and no sponsorship"))
      (RESTRICTION_PATTERNS.filterMap
        (fun p => (reSearch p (str "no sponsorship and no sponsorship")).map
          (fun m => m.map Char.toLower))) :=
  ⟨by decide,
   (C3_dedup_order _ (by decide)).1,
   (C3_dedup_order _ (by decide)).2⟩

/-- C4: empty text is nothing-to-scan — a body-less document extracts to the
empty string, and on the empty string the scan body returns the empty result
whatever the two matcher lists are (so no matcher is consulted). -/
theorem C4_empty_text :
    (∀ doc : Doc, doc.body = none → getPageText doc = []) ∧
    (∀ epats rpats : List RE, scanCore epats rpats [] = []) ∧
    scanForRestrictions [] = [] := by
  refine ⟨?_, ?_, rfl⟩
  · intro doc h
    unfold getPageText
    rw [h]
  · intro epats rpats
    simp [scanCore]

/-- Witness for C4: the concrete body-less document and the pattern lists of
the script itself. -/
theorem C4_empty_text_witness :
    getPageText ⟨none⟩ = [] ∧
    scanCore EXCLUSION_PATTERNS RESTRICTION_PATTERNS [] = [] :=
  ⟨C4_empty_text.1 ⟨none⟩ rfl,
   C4_empty_text.2.1 EXCLUSION_PATTERNS RESTRICTION_PATTERNS⟩

/-- C2 counterexample: the keyword variant of `scanForRestrictions` is not
boundary-aware — on the input "casino sponsorship" it reports the phrase
"no sponsorship", although that phrase occurs in the text only as a substring
starting inside the unrelated word "casino" (at no word boundary). -/
theorem C2_word_boundary_counterexample :
    scanForRestrictionsKw (str "casino sponsorship") = [str "no sponsorship"] ∧
    occursAtBoundaryB (str "no sponsorship")
      ((str "casino sponsorship").map Char.toLower) = false := by
  exact ⟨by decide, by decide⟩

/-- C2 (amended): every regex restriction pattern starts with a `\b`
assertion, so the regex-based matcher can only match at a word-boundary
position; and on the input "responsibility" both scan variants return the
empty result (no pattern built around "no sponsorship" fires). -/
theorem C2_word_boundary_amended :
    (∀ p ∈ RESTRICTION_PATTERNS, ∀ (prev : Option Char) (s : Str),
        matchAll p prev s ≠ [] → wordBoundaryB prev s = true) ∧
    scanForRestrictions (str "responsibility") = [] ∧
    scanForRestrictionsKw (str "responsibility") = [] := by
  refine ⟨?_, by decide, by decide⟩
  intro p hp prev s h
  have hall : RESTRICTION_PATTERNS.all startsWithWB = true := by decide
  exact matchAll_wb_boundary (List.all_eq_true.mp hall p hp) prev s h

/-- Witness for C2 (amended): the first restriction pattern matches at the
start of "no sponsorship", so that position is a word boundary. -/
theorem C2_word_boundary_amended_witness :
    wordBoundaryB none (str "no sponsorship") = true :=
  C2_word_boundary_amended.1
    (seq [.wb, lit "no", spRe, optVisaSp, lit "sponsorship", .wb])
    (by unfold RESTRICTION_PATTERNS; exact List.mem_cons_self _ _)
    none (str "no sponsorship") (by decide)

/-- C10: every phrase returned by either `scanForRestrictions` variant is a
lowercase string and occurs as a contiguous substring of the lowercased input
text. -/
theorem C10_result_substring (text m : Str)
    (h : m ∈ scanForRestrictions text ∨ m ∈ scanForRestrictionsKw text) :
    m.map Char.toLower = m ∧
    ∃ pre post, pre ++ (m ++ post) = text.map Char.toLower := by
  rcases h with h | h
  · unfold scanForRestrictions scanCore at h
    by_cases ht : text = []
    · rw [if_pos ht] at h; cases h
    · rw [if_neg ht] at h
      by_cases he : EXCLUSION_PATTERNS.any (fun p => reTest p text) = true
      · rw [if_pos he] at h; cases h
      · rw [if_neg he] at h
        obtain ⟨p, _, hp⟩ := List.mem_filterMap.mp (mem_of_mem_jsSetDedup h)
        rcases hs : reSearch p text with _ | m0
        · rw [hs] at hp; cases hp
        · rw [hs] at hp
          injection hp with hp'
          subst hp'
          refine ⟨map_toLower_idem m0, ?_⟩
          obtain ⟨pre, post, hsplit⟩ := reSearch_infix hs
          refine ⟨pre.map Char.toLower, post.map Char.toLower, ?_⟩
          rw [← hsplit]
          simp
  · unfold scanForRestrictionsKw at h
    by_cases ht : text = []
    · rw [if_pos ht] at h; cases h
    · rw [if_neg ht] at h
      have hm := mem_of_mem_jsSetDedup h
      have hkw : m ∈ RESTRICTION_KEYWORDS := List.mem_of_mem_filter hm
      have hcont : containsStr (text.map Char.toLower) m = true :=
        List.of_mem_filter hm
      have hlow : RESTRICTION_KEYWORDS.all
          (fun k => decide (k.map Char.toLower = k)) = true := by decide
      refine ⟨of_decide_eq_true (List.all_eq_true.mp hlow m hkw), ?_⟩
      exact containsStr_split _ _ hcont

/-- Witness for C10: one application per scan variant, at inputs on which the
variant reports the phrase "no sponsorship". -/
theorem C10_result_substring_witness :
    ((str "no sponsorship").map Char.toLower = str "no sponsorship" ∧
      ∃ pre post, pre ++ (str "no sponsorship" ++ post) =
        (str "No Sponsorship Here").map Char.toLower) ∧
    ((str "no sponsorship").map Char.toLower = str "no sponsorship" ∧
      ∃ pre post, pre ++ (str "no sponsorship" ++ post) =
        (str "casino sponsorship").map Char.toLower) :=
  ⟨C10_result_substring (str "No Sponsorship Here") (str "no sponsorship")
    (Or.inl (by decide)),
   C10_result_substring (str "casino sponsorship") (str "no sponsorship")
    (Or.inr (by decide))⟩

/-- C5: disabled pipeline — a scan firing with `enabled` false performs no
extraction or matching, clears the banner (and highlights) and leaves the
cached snapshot (and all other state) unchanged; and a storage change setting
`enabled` to false immediately disables the pipeline and clears the banner. -/
theorem C5_disabled_pipeline :
    (∀ (dom : Doc) (s : ScanState), s.isExtensionEnabled = false →
        performScan dom s =
          ({ s with bannerVisible := false, highlightsPresent := false },
           [Effect.removeBanner])) ∧
    (∀ (ch : StorageChanges) (area : StorageArea) (s : ScanState),
        (area = StorageArea.sync ∨ area = StorageArea.local) →
        ch.enabledChange = some ⟨some false⟩ →
        (onStorageChange ch area s).1.isExtensionEnabled = false ∧
        (onStorageChange ch area s).1.bannerVisible = false ∧
        Effect.removeBanner ∈ (onStorageChange ch area s).2) := by
  constructor
  · intro dom s h
    simp [performScan, h]
  · intro ch area s harea hch
    obtain ⟨ec, hc⟩ := ch
    simp only at hch
    subst hch
    have hA : ¬(area ≠ StorageArea.sync ∧ area ≠ StorageArea.local) := by
      rcases harea with rfl | rfl <;> simp
    cases hc with
    | none => simp [onStorageChange, hA]
    | some kc =>
        by_cases hkc : kc.newValue = some true <;>
          simp [onStorageChange, hA, hkc]

/-- Witness for C5: a concrete disabled state with a visible banner, and a
concrete storage change that disables the extension. -/
theorem C5_disabled_pipeline_witness :
    performScan ⟨none⟩ ⟨str "x", false, false, true, true⟩ =
      ({ (⟨str "x", false, false, true, true⟩ : ScanState) with
          bannerVisible := false, highlightsPresent := false },
       [Effect.removeBanner]) ∧
    ((onStorageChange ⟨some ⟨some false⟩, none⟩ StorageArea.sync
        ⟨[], true, false, true, false⟩).1.isExtensionEnabled = false ∧
      (onStorageChange ⟨some ⟨some false⟩, none⟩ StorageArea.sync
        ⟨[], true, false, true, false⟩).1.bannerVisible = false ∧
      Effect.removeBanner ∈ (onStorageChange ⟨some ⟨some false⟩, none⟩
        StorageArea.sync ⟨[], true, false, true, false⟩).2) :=
  ⟨C5_disabled_pipeline.1 ⟨none⟩ ⟨str "x", false, false, true, true⟩ rfl,
   C5_disabled_pipeline.2 ⟨some ⟨some false⟩, none⟩ StorageArea.sync
     ⟨[], true, false, true, false⟩ (Or.inl rfl) rfl⟩

/-- C6: idempotent re-scan — with the extension enabled, a scan whose
extracted text equals the cached snapshot only extracts and changes nothing
(no matcher, no presenter call); consequently running `performScan` twice
against the same document leaves the state of the first run unchanged and performs
extraction only on the second run. -/
theorem C6_idempotent_rescan (dom : Doc) (s : ScanState)
    (h : s.isExtensionEnabled = true) :
    (s.lastScannedText = getPageText dom →
        performScan dom s = (s, [Effect.extractText])) ∧
    performScan dom ((performScan dom s).1) =
      ((performScan dom s).1, [Effect.extractText]) := by
  have key : ∀ s' : ScanState, s'.isExtensionEnabled = true →
      s'.lastScannedText = getPageText dom →
      performScan dom s' = (s', [Effect.extractText]) := by
    intro s' h1 h2
    simp [performScan, h1, h2]
  have hfst : (performScan dom s).1.isExtensionEnabled = true ∧
      (performScan dom s).1.lastScannedText = getPageText dom := by
    by_cases h2 : getPageText dom = s.lastScannedText
    · refine ⟨?_, ?_⟩ <;> simp [performScan, h, h2]
    · by_cases h3 : scanForRestrictions (getPageText dom) = []
      · refine ⟨?_, ?_⟩ <;> simp [performScan, h, h2, h3]
      · by_cases h4 : s.highlightMatches <;>
          (refine ⟨?_, ?_⟩ <;> simp [performScan, h, h2, h3, h4])
  exact ⟨key s h, key _ hfst.1 hfst.2⟩

/-- Witness for C6: a concrete enabled state and a concrete document. -/
theorem C6_idempotent_rescan_witness :
    performScan ⟨none⟩ ((performScan ⟨none⟩ ⟨str "x", true, false, false, false⟩).1) =
      ((performScan ⟨none⟩ ⟨str "x", true, false, false, false⟩).1,
       [Effect.extractText]) :=
  (C6_idempotent_rescan ⟨none⟩ ⟨str "x", true, false, false, false⟩ rfl).2

/-- C7 counterexample: after a URL change the snapshot is reset to empty, yet
when the newly extracted text is the empty string (byte-identical to the
empty prior snapshot) the next scan is skipped by the snapshot-equality check
and the Matcher is not executed — the effects are extraction only. -/
theorem C7_navigation_counterexample :
    (urlPollTick "https://a/2" "https://a/1"
        ⟨[], true, false, false, false⟩).2.1.lastScannedText = [] ∧
    (urlPollTick "https://a/2" "https://a/1"
        ⟨[], true, false, false, false⟩).2.1.isExtensionEnabled = true ∧
    getPageText ⟨none⟩ = ([] : Str) ∧
    performScan ⟨none⟩ (urlPollTick "https://a/2" "https://a/1"
        ⟨[], true, false, false, false⟩).2.1 =
      ((urlPollTick "https://a/2" "https://a/1"
          ⟨[], true, false, false, false⟩).2.1,
       [Effect.extractText]) := by
  decide

/-- C7 (amended): a URL-poll tick on a changed URL (and a popstate event)
resets the cached snapshot to empty and schedules a scan; and any subsequent
scan with the extension enabled, an empty snapshot and non-empty extracted
text executes the Matcher — in particular even when the extracted text is
byte-identical to a non-empty prior snapshot; only an empty extraction
(nothing to scan) is still skipped. -/
theorem C7_navigation_amended :
    (∀ (cur lastUrl : String) (s : ScanState), cur ≠ lastUrl →
        (urlPollTick cur lastUrl s).2.1.lastScannedText = [] ∧
        (urlPollTick cur lastUrl s).1 = cur ∧
        Effect.scheduleScan ∈ (urlPollTick cur lastUrl s).2.2) ∧
    (∀ s : ScanState, (onPopstate s).1.lastScannedText = [] ∧
        Effect.scheduleScan ∈ (onPopstate s).2) ∧
    (∀ (dom : Doc) (s : ScanState), s.isExtensionEnabled = true →
        s.lastScannedText = [] → getPageText dom ≠ [] →
        Effect.runMatcher (getPageText dom) ∈ (performScan dom s).2) := by
  refine ⟨?_, ?_, ?_⟩
  · intro cur lastUrl s hne
    simp [urlPollTick, hne]
  · intro s
    simp [onPopstate]
  · intro dom s h1 h2 h3
    have hne : ¬(getPageText dom = s.lastScannedText) := by
      rw [h2]; exact h3
    by_cases hf : scanForRestrictions (getPageText dom) = []
    · simp [performScan, h1, hne, hf]
    · by_cases h4 : s.highlightMatches <;> simp [performScan, h1, hne, hf, h4]

/-- Witness for C7 (amended): a concrete changed URL, a concrete state and a
concrete document with non-empty extracted text. -/
theorem C7_navigation_amended_witness :
    ((urlPollTick "https://a/2" "https://a/1"
        ⟨str "old", true, false, false, false⟩).2.1.lastScannedText = [] ∧
      (urlPollTick "https://a/2" "https://a/1"
        ⟨str "old", true, false, false, false⟩).1 = "https://a/2" ∧
      Effect.scheduleScan ∈ (urlPollTick "https://a/2" "https://a/1"
        ⟨str "old", true, false, false, false⟩).2.2) ∧
    Effect.runMatcher (getPageText ⟨some ⟨List.replicate 60 'a', []⟩⟩) ∈
      (performScan ⟨some ⟨List.replicate 60 'a', []⟩⟩
        ⟨[], true, false, false, false⟩).2 :=
  ⟨C7_navigation_amended.1 "https://a/2" "https://a/1"
      ⟨str "old", true, false, false, false⟩ (by decide),
   C7_navigation_amended.2.2 ⟨some ⟨List.replicate 60 'a', []⟩⟩
      ⟨[], true, false, false, false⟩ rfl rfl (by decide)⟩

/-- C8: debounce coalescing — for any non-empty burst of trigger times in
which each trigger arrives before the quiet window of the previous one elapses,
exactly one scan fires, at the time of the last trigger plus `SCAN_DEBOUNCE_MS`;
and every trigger replaces the single pending timer slot with a fresh
deadline (at most one pending timer ever exists). -/
theorem C8_debounce_coalescing (ts : List Nat) (hne : ts ≠ [])
    (hch : List.Chain' (fun x y => x ≤ y ∧ y < x + SCAN_DEBOUNCE_MS) ts) :
    debounceFires ts = [ts.getLast hne + SCAN_DEBOUNCE_MS] ∧
    ∀ (p : Option Nat) (t : Nat),
      (debouncedScanStep p t).1 = some (t + SCAN_DEBOUNCE_MS) := by
  constructor
  · cases ts with
    | nil => exact absurd rfl hne
    | cons a ts' =>
        have hstep : debouncedScanStep none a =
            (some (a + SCAN_DEBOUNCE_MS), []) := rfl
        simp only [debounceFires, debounceRun, hstep]
        rw [debounceRun_quiet ts' a hch]
        simp
  · intro p t
    cases p with
    | none => rfl
    | some d =>
        simp only [debouncedScanStep]
        split <;> rfl

/-- Witness for C8: the burst (0, 100, 300) — three triggers inside one
another produce the single fire time 800. -/
theorem C8_debounce_coalescing_witness :
    debounceFires [0, 100, 300] = [800] ∧
    (debouncedScanStep (some 77) 3).1 = some (3 + SCAN_DEBOUNCE_MS) := by
  have h := C8_debounce_coalescing [0, 100, 300] (by decide)
    (by norm_num [List.chain'_cons, SCAN_DEBOUNCE_MS])
  exact ⟨h.1, h.2 (some 77) 3⟩

/-- C9 counterexample: with a rendered `innerText` of length exactly 50 the
code takes the fallback walk (the claim says the primary result is used
whenever it is not below the 50-character threshold), and a fallback fragment
of trimmed length exactly 5 is dropped (the claim says only fragments shorter
than 5 are skipped). -/
theorem C9_extractor_counterexample :
    (List.replicate 50 'A').length = 50 ∧
    getPageText ⟨some ⟨List.replicate 50 'A',
        [Node.elem "div" [Node.text (str "HELLO WORLD")]]⟩⟩ =
      str "hello world" ∧
    getPageText ⟨some ⟨List.replicate 50 'A',
        [Node.elem "div" [Node.text (str "HELLO WORLD")]]⟩⟩ ≠
      (List.replicate 50 'A').map Char.toLower ∧
    (trimStr (str "12345")).length = 5 ∧
    getPageText ⟨some ⟨[], [Node.elem "div" [Node.text (str "12345")]]⟩⟩ =
      ([] : Str) := by
  decide

/-- C9 (amended): the extractor uses the primary rendered text exactly when
its length strictly exceeds 50 (so a result of length exactly 50 already goes
to the fallback); the fallback equals the space-joined trimmed text fragments
whose parent is not script/style/noscript and whose trimmed length strictly
exceeds 5 (so fragments of length exactly 5 are dropped), lowercased. -/
theorem C9_extractor_amended :
    (∀ b : Body, 50 < b.innerText.length →
        getPageText ⟨some b⟩ = b.innerText.map Char.toLower) ∧
    (∀ b : Body, b.innerText.length ≤ 50 →
        getPageText ⟨some b⟩ =
          (joinSpace (((textNodesList "body" b.children).filter
              (fun pr => keepFrag pr.1 pr.2)).map
            (fun pr => trimStr pr.2))).map Char.toLower) ∧
    (∀ (ptag : String) (s : Str), badTagB ptag = true →
        keepFrag ptag s = false) ∧
    (∀ (ptag : String) (s : Str), (trimStr s).length ≤ 5 →
        keepFrag ptag s = false) := by
  refine ⟨?_, ?_, ?_, ?_⟩
  · intro b hb
    have hne : b.innerText ≠ [] := by
      intro hx; rw [hx] at hb; simp at hb
    simp [getPageText, hne, hb]
  · intro b hb
    have : ¬(b.innerText ≠ [] ∧ 50 < b.innerText.length) := by omega
    simp only [getPageText, if_neg this]
    rw [collectChunks_eq]
  · intro ptag s h
    simp [keepFrag, h]
  · intro ptag s h
    simp [keepFrag, Nat.not_lt.mpr h]

/-- Witness for C9 (amended): concrete bodies on both sides of the threshold
and concrete fragments for the two filters. -/
theorem C9_extractor_amended_witness :
    getPageText ⟨some ⟨List.replicate 60 'A', []⟩⟩ =
      (List.replicate 60 'A').map Char.toLower ∧
    getPageText ⟨some ⟨str "ok", [Node.text (str "HELLO WORLD")]⟩⟩ =
      (joinSpace (((textNodesList "body"
          [Node.text (str "HELLO WORLD")]).filter
            (fun pr => keepFrag pr.1 pr.2)).map
          (fun pr => trimStr pr.2))).map Char.toLower ∧
    keepFrag "script" (str "plenty of text here") = false ∧
    keepFrag "div" (str "12345") = false :=
  ⟨C9_extractor_amended.1 ⟨List.replicate 60 'A', []⟩ (by decide),
   C9_extractor_amended.2.1 ⟨str "ok", [Node.text (str "HELLO WORLD")]⟩
     (by decide),
   C9_extractor_amended.2.2.1 "script" (str "plenty of text here") (by decide),
   C9_extractor_amended.2.2.2 "div" (str "12345") (by decide)⟩

end VSD
